import Mathlib

/-!
Verification of the Viralyn storefront core (catalog query engine, cart ledger,
review aggregator, history tracker, persistence load, recommendation matching)
against its specification.  All definitions are shallow embeddings of the
TypeScript source in `src/App.tsx`, `src/constants.ts`, `src/types.ts`:
JavaScript strings become `String` (manipulated through explicit `List Char`
helpers so that everything kernel-evaluates), JavaScript numbers become `ℚ`
(prices, ratings) or `ℤ` (quantities) or `ℕ` (counts), and JavaScript arrays
become `List`.  React `useState` updater functions become pure
state-to-state functions.
-/

/- ------------------------------------------------------------------ -/
/- String helpers (models of the JavaScript string primitives used).  -/
/- ------------------------------------------------------------------ -/

/-- Model of `String.prototype.toLowerCase` (ASCII-adequate: every character is
lowered individually via `Char.toLower`).  Defined on the character list so
that it reduces in the kernel. -/
def toLowerStr (s : String) : String := String.mk (s.data.map Char.toLower)

/-- Whitespace characters removed by `String.prototype.trim` (space, tab,
line feed, carriage return; the characters actually occurring in this
code base). -/
def isWsChar (c : Char) : Bool := c = ' ' || c = '\t' || c = '\n' || c = '\r'

/-- Model of `String.prototype.trim`: drop leading and trailing whitespace. -/
def trimStr (s : String) : String :=
  String.mk (((s.data.dropWhile isWsChar).reverse.dropWhile isWsChar).reverse)

/-- Does `text` start with `pat`? (used to build substring search). -/
def leadMatch : List Char → List Char → Bool
  | [], _ => true
  | _ :: _, [] => false
  | p :: ps, t :: ts => p = t && leadMatch ps ts

/-- Does `pat` occur contiguously inside `text`?  Model of
`String.prototype.includes` (on character lists). -/
def occursIn : List Char → List Char → Bool
  | pat, [] => leadMatch pat []
  | pat, t :: ts => leadMatch pat (t :: ts) || occursIn pat ts

/-- Model of `s.includes(sub)` on `String`. -/
def strIncludes (s sub : String) : Bool := occursIn sub.data s.data

/-- Lexicographic comparison of character lists by code point; model of the
ascending order produced by the `localeCompare` comparator in the `name`
sort (the spec describes it as "lexicographically ascending by display
name"; locale-specific collation is modelled as code-point order). -/
def charListLe : List Char → List Char → Bool
  | [], _ => true
  | _ :: _, [] => false
  | a :: as, b :: bs => if a < b then true else if b < a then false else charListLe as bs

/- ------------------------------------------------------------------ -/
/- Data model (src/types.ts).                                         -/
/- ------------------------------------------------------------------ -/

/-- The closed category enumeration of `src/types.ts`. -/
inductive Category where
  | streaming | ai | gaming | productivity | music
deriving DecidableEq, Repr

/-- The stock status union of `src/types.ts`. -/
inductive Stock where
  | inStock | lowStock | outOfStock
deriving DecidableEq, Repr

/-- A user review (`Review` in `src/types.ts`).  The JavaScript `rating`
number is modelled as `ℚ`. -/
structure Review where
  id : String
  userName : String
  rating : ℚ
  comment : String
  date : String
deriving DecidableEq, Repr

/-- A catalog product (`Product` in `src/types.ts`).  The optional
`userReviews` field is modelled as a plain list: the source always reads it
through `p.userReviews || []`, so a missing field behaves as `[]`. -/
structure Product where
  id : String
  name : String
  description : String
  price : ℚ
  originalPrice : ℚ
  image : String
  category : Category
  rating : ℚ
  reviews : ℕ
  benefits : List String
  stock : Stock
  duration : String
  userReviews : List Review
deriving DecidableEq, Repr

/-- A cart entry (`CartItem extends Product` in `src/types.ts`): a snapshot
of the product plus a quantity.  The JavaScript quantity number is modelled
as `ℤ` (the code compares it against 0). -/
structure CartItem extends Product where
  quantity : ℤ
deriving DecidableEq, Repr

/-- The sort options union (`SortOption` in `src/App.tsx`). -/
inductive SortOption where
  | featured | priceLow | priceHigh | rating | name
deriving DecidableEq, Repr

/-- The category filter state: a concrete category or `'All'`
(`Category | 'All'` in `src/App.tsx`). -/
inductive CategoryFilter where
  | all
  | only (c : Category)
deriving DecidableEq, Repr

/-- The ephemeral query specification: the filter/sort states held by the
`App` component (`searchQuery`, `activeCategory`, `priceRange`, `minRating`,
`stockOnly`, `sortBy` in `src/App.tsx`). -/
structure QuerySpec where
  searchQuery : String
  activeCategory : CategoryFilter
  priceRange : ℚ × ℚ
  minRating : ℚ
  stockOnly : Bool
  sortBy : SortOption

/- ------------------------------------------------------------------ -/
/- Seed catalog (src/constants.ts).                                   -/
/- ------------------------------------------------------------------ -/

/-- `createMockReviews` from `src/constants.ts`. -/
def createMockReviews (productName : String) : List Review :=
  [ { id := "r1"
      userName := "Alex Johnson"
      rating := 5
      comment := "Absolutely love this " ++ productName ++ " deal. Saved so much money!"
      date := "2023-10-12" },
    { id := "r2"
      userName := "Sarah Miller"
      rating := 4
      comment := "Instant delivery as promised. Smooth setup."
      date := "2023-11-05" } ]

/-- The seed catalog `PRODUCTS` from `src/constants.ts`. -/
def PRODUCTS : List Product :=
  [ { id := "netflix-prem"
      name := "Netflix Premium 4K"
      description := "Get access to unlimited movies, TV shows, and more. 4K HDR streaming on 4 screens."
      price := 4.99
      originalPrice := 19.99
      image := "https://images.unsplash.com/photo-1574375927938-d5a98e8ffe85?w=800&q=80"
      category := Category.streaming
      rating := 4.9
      reviews := 1240
      benefits := ["4K UHD Quality", "4 Simultaneous Screens", "No Ads", "All Devices Supported"]
      stock := Stock.inStock
      duration := "1 Month"
      userReviews := createMockReviews "Netflix" },
    { id := "spotify-prem"
      name := "Spotify Premium Family"
      description := "Millions of songs and podcasts. Play on all your devices. No ad interruptions."
      price := 2.50
      originalPrice := 15.99
      image := "https://images.unsplash.com/photo-1614680376593-902f74cf0d41?w=800&q=80"
      category := Category.music
      rating := 4.8
      reviews := 850
      benefits := ["Ad-free music", "Offline playback", "High quality audio", "Unlimited skips"]
      stock := Stock.inStock
      duration := "1 Month"
      userReviews := createMockReviews "Spotify" },
    { id := "chatgpt-plus"
      name := "ChatGPT Plus (Shared)"
      description := "Get the most out of ChatGPT with early access to new features and GPT-4."
      price := 8.99
      originalPrice := 20.00
      image := "https://images.unsplash.com/photo-1677442136019-21780ecad995?w=800&q=80"
      category := Category.ai
      rating := 5.0
      reviews := 2100
      benefits := ["GPT-4 Access", "DALL-E 3 Included", "Faster Response Time", "Early Feature Access"]
      stock := Stock.lowStock
      duration := "1 Month"
      userReviews := createMockReviews "ChatGPT" },
    { id := "youtube-prem"
      name := "YouTube Premium"
      description := "Enjoy YouTube and YouTube Music ad-free, offline, and in the background."
      price := 3.99
      originalPrice := 13.99
      image := "https://images.unsplash.com/photo-1611162617474-5b21e879e113?w=800&q=80"
      category := Category.streaming
      rating := 4.7
      reviews := 640
      benefits := ["No Ads", "Background Play", "YouTube Music Premium", "Downloads"]
      stock := Stock.inStock
      duration := "1 Month"
      userReviews := createMockReviews "YouTube" },
    { id := "xbox-gamepass"
      name := "Xbox Game Pass Ultimate"
      description := "Play hundreds of high-quality games on console, PC and cloud."
      price := 5.99
      originalPrice := 16.99
      image := "https://images.unsplash.com/photo-1605902711622-cfb43c4437b5?w=800&q=80"
      category := Category.gaming
      rating := 4.9
      reviews := 430
      benefits := ["EA Play Included", "Cloud Gaming", "Monthly Rewards", "Access to Day One Releases"]
      stock := Stock.inStock
      duration := "1 Month"
      userReviews := createMockReviews "Xbox" },
    { id := "canva-pro"
      name := "Canva Pro Lifetime"
      description := "Design like a professional with premium templates and stock media."
      price := 12.99
      originalPrice := 119.99
      image := "https://images.unsplash.com/photo-1626785774573-4b799315345d?w=800&q=80"
      category := Category.productivity
      rating := 4.8
      reviews := 920
      benefits := ["Unlimited Premium Assets", "Brand Kit", "One-Click Resize", "AI Magic Studio"]
      stock := Stock.inStock
      duration := "Lifetime"
      userReviews := createMockReviews "Canva" } ]

/- ------------------------------------------------------------------ -/
/- Query Engine (filteredProducts in src/App.tsx, lines 680-698).     -/
/- ------------------------------------------------------------------ -/

/-- `matchesSearch` predicate of `filteredProducts`:
`p.name.toLowerCase().includes(searchQuery.toLowerCase())`. -/
def matchesSearch (spec : QuerySpec) (p : Product) : Bool :=
  strIncludes (toLowerStr p.name) (toLowerStr spec.searchQuery)

/-- `matchesCategory` predicate of `filteredProducts`:
`activeCategory === 'All' || p.category === activeCategory`. -/
def matchesCategory (spec : QuerySpec) (p : Product) : Bool :=
  match spec.activeCategory with
  | CategoryFilter.all => true
  | CategoryFilter.only c => decide (p.category = c)

/-- `matchesPrice` predicate of `filteredProducts`:
`p.price >= priceRange[0] && p.price <= priceRange[1]`. -/
def matchesPrice (spec : QuerySpec) (p : Product) : Bool :=
  decide (spec.priceRange.1 ≤ p.price) && decide (p.price ≤ spec.priceRange.2)

/-- `matchesRating` predicate of `filteredProducts`: `p.rating >= minRating`. -/
def matchesRating (spec : QuerySpec) (p : Product) : Bool :=
  decide (spec.minRating ≤ p.rating)

/-- `matchesStock` predicate of `filteredProducts`:
`!stockOnly || p.stock === 'In Stock'`. -/
def matchesStock (spec : QuerySpec) (p : Product) : Bool :=
  !spec.stockOnly || decide (p.stock = Stock.inStock)

/-- The filtering stage of `filteredProducts` (src/App.tsx lines 681-688):
the conjunction of the five predicates. -/
def filterStep (products : List Product) (spec : QuerySpec) : List Product :=
  products.filter fun p =>
    matchesSearch spec p && matchesCategory spec p && matchesPrice spec p
      && matchesRating spec p && matchesStock spec p

/-- The sorting stage of `filteredProducts` (src/App.tsx lines 690-696).
`Array.prototype.sort` is guaranteed stable, so each comparator branch is
modelled as a stable merge sort with the corresponding boolean order; the
`featured` default branch leaves the filtered list untouched. -/
def sortStep (l : List Product) : SortOption → List Product
  | SortOption.priceLow => l.mergeSort fun a b => decide (a.price ≤ b.price)
  | SortOption.priceHigh => l.mergeSort fun a b => decide (b.price ≤ a.price)
  | SortOption.rating => l.mergeSort fun a b => decide (b.rating ≤ a.rating)
  | SortOption.name => l.mergeSort fun a b => charListLe a.name.data b.name.data
  | SortOption.featured => l

/-- `filteredProducts` (src/App.tsx lines 680-699): filter, then sort. -/
def filteredProducts (products : List Product) (spec : QuerySpec) : List Product :=
  sortStep (filterStep products spec) spec.sortBy

/- ------------------------------------------------------------------ -/
/- History tracker (trackRecentlyViewed, src/App.tsx lines 701-706).  -/
/- ------------------------------------------------------------------ -/

/-- The state-updater body of `trackRecentlyViewed`:
`[p.id, ...prev.filter(id => id !== p.id)].slice(0, 10)`. -/
def trackRecentlyViewed (prev : List String) (pid : String) : List String :=
  (pid :: prev.filter fun i => decide (i ≠ pid)).take 10

/- ------------------------------------------------------------------ -/
/- Cart Ledger (addToCart / updateQuantity / removeFromCart,          -/
/- src/App.tsx lines 708-730).                                        -/
/- ------------------------------------------------------------------ -/

/-- The cart-state update performed by `addToCart` (src/App.tsx lines
709-715): increment the quantity of an existing entry with the same id, or
append a fresh snapshot with the given quantity. -/
def addToCart (prev : List CartItem) (product : Product) (quantity : ℤ) : List CartItem :=
  match prev.find? fun item => decide (item.id = product.id) with
  | some _ =>
      prev.map fun item =>
        if item.id = product.id then { item with quantity := item.quantity + quantity }
        else item
  | none => prev ++ [{ product with quantity := quantity }]

/-- `removeFromCart` (src/App.tsx lines 728-730):
`prev.filter(item => item.id !== id)`. -/
def removeFromCart (prev : List CartItem) (id : String) : List CartItem :=
  prev.filter fun item => decide (item.id ≠ id)

/-- `updateQuantity` (src/App.tsx lines 720-726): non-positive quantities
delegate to `removeFromCart`, positive quantities overwrite the matching
item's quantity. -/
def updateQuantity (prev : List CartItem) (id : String) (q : ℤ) : List CartItem :=
  if q ≤ 0 then removeFromCart prev id
  else prev.map fun item => if item.id = id then { item with quantity := q } else item

/- ------------------------------------------------------------------ -/
/- Review Aggregator (handleAddReview, src/App.tsx lines 741-754).    -/
/- ------------------------------------------------------------------ -/

/-- Rounding to one decimal place: model of
`Number(x.toFixed(1))`.  `toFixed` rounds to the nearest multiple of 0.1,
ties towards the larger value, which is exactly `round` (⌊x + 1/2⌋) on the
scaled value. -/
def round1 (x : ℚ) : ℚ := (round (10 * x) : ℤ) / 10

/-- The catalog update performed by `handleAddReview` (src/App.tsx lines
742-754): for the product with the given id, prepend the review, recompute
the rating as the rounded mean of the updated review list
(`updatedReviews.reduce((acc, r) => acc + r.rating, 0) / updatedReviews.length`,
then `toFixed(1)`), and increment the submitted-review counter. -/
def handleAddReview (products : List Product) (productId : String) (review : Review) :
    List Product :=
  products.map fun p =>
    if p.id = productId then
      let updatedReviews := review :: p.userReviews
      let newRating :=
        round1 ((updatedReviews.foldl (fun acc r => acc + r.rating) 0) /
          (updatedReviews.length : ℚ))
      { p with userReviews := updatedReviews, rating := newRating, reviews := p.reviews + 1 }
    else p

/-- The UI submit handler `handleSubmitReview` (src/App.tsx lines 266-281):
`if (!reviewComment.trim()) return;` guards the call to `onAddReview`
(i.e. `handleAddReview`).  The non-deterministic review id (`Date.now()`)
and date are passed in as parameters. -/
def handleSubmitReview (products : List Product) (productId : String)
    (reviewRating : ℚ) (reviewComment : String) (newId newDate : String) : List Product :=
  if trimStr reviewComment = "" then products
  else
    handleAddReview products productId
      { id := newId, userName := "Demo User", rating := reviewRating,
        comment := reviewComment, date := newDate }

/- ------------------------------------------------------------------ -/
/- Combined application state (the App component's useState cells     -/
/- touched by addToCart).                                             -/
/- ------------------------------------------------------------------ -/

/-- The mutable state cells of the `App` component that the cart-side
operations touch. -/
structure AppState where
  products : List Product
  cart : List CartItem
  isCartOpen : Bool
  wishlist : List String
  recentlyViewedIds : List String

/-- The full effect of the `addToCart` callback (src/App.tsx lines
708-718): update the cart, record the product as recently viewed via
`trackRecentlyViewed(product)`, and open the cart drawer. -/
def appAddToCart (s : AppState) (product : Product) (quantity : ℤ) : AppState :=
  { s with
    cart := addToCart s.cart product quantity
    recentlyViewedIds := trackRecentlyViewed s.recentlyViewedIds product.id
    isCartOpen := true }

/- ------------------------------------------------------------------ -/
/- Recommendation matching (CartDrawer effect, src/App.tsx 460-475).  -/
/- ------------------------------------------------------------------ -/

/-- Case-insensitive fragment match used by the recommendations effect:
`p.name.toLowerCase().includes(n.toLowerCase())`. -/
def nameMatches (p : Product) (n : String) : Bool :=
  strIncludes (toLowerStr p.name) (toLowerStr n)

/-- The recommendation list computed in the `CartDrawer` effect
(src/App.tsx lines 465-468): filter the seed catalog to products whose name
matches some suggested fragment and whose id is not already in the cart,
then truncate to 3. -/
def suggestedRecommendations (names : List String) (cart : List CartItem) : List Product :=
  (PRODUCTS.filter fun p =>
    (names.any fun n => nameMatches p n) && !(cart.any fun c => decide (c.id = p.id))).take 3

/-- Modelled from the spec: the recommendation ordering the specification
describes ("in the order the fragments were returned; first match per
fragment wins ordering; duplicates across fragments must be deduplicated by
product id").  This definition follows the spec's words, to be compared
with `suggestedRecommendations` (the ordering the code actually produces);
`dedupByIdFirst` keeps the first occurrence of each product id. -/
def dedupByIdGo : List Product → List String → List Product
  | [], _ => []
  | p :: ps, seen =>
    if seen.contains p.id then dedupByIdGo ps seen
    else p :: dedupByIdGo ps (p.id :: seen)

/-- Modelled from the spec: keep the first occurrence of each product id
(see `specOrderedRecommendations`). -/
def dedupByIdFirst (l : List Product) : List Product := dedupByIdGo l []

/-- Modelled from the spec: fragment-major recommendation order (see
`dedupByIdFirst`). -/
def specOrderedRecommendations (names : List String) (cart : List CartItem) : List Product :=
  (dedupByIdFirst ((names.map fun n =>
    PRODUCTS.filter fun p =>
      nameMatches p n && !(cart.any fun c => decide (c.id = p.id))).flatten)).take 3

/- ------------------------------------------------------------------ -/
/- Persistence initialization (src/App.tsx lines 664-669).            -/
/- The stored values are read with localStorage.getItem and fed to    -/
/- JSON.parse with no try/catch; JSON.parse is a platform primitive,  -/
/- modelled here by a lenient recursive-descent JSON acceptor (it     -/
/- accepts every string the platform parser accepts, so each input it -/
/- rejects really does make JSON.parse throw).                        -/
/- ------------------------------------------------------------------ -/

/-- JSON values, as produced by the platform `JSON.parse`.  Numbers are kept
as raw text (their numeric value is never needed here). -/
inductive Json where
  | null
  | jbool (b : Bool)
  | jnum (s : String)
  | jstr (s : String)
  | jarr (xs : List Json)
  | jobj (kvs : List (String × Json))

/-- Characters that may appear in a (leniently accepted) JSON number. -/
def isNumChar (c : Char) : Bool :=
  c.isDigit || c = '-' || c = '+' || c = '.' || c = 'e' || c = 'E'

/-- Parse the remainder of a JSON string literal (after the opening quote);
escape sequences are accepted leniently (backslash plus any character). -/
def parseJStr : List Char → List Char → Option (String × List Char)
  | [], _ => none
  | c :: rest, acc =>
    if c = '"' then some (String.mk acc.reverse, rest)
    else if c = '\\' then
      match rest with
      | [] => none
      | e :: rest2 => parseJStr rest2 (e :: acc)
    else parseJStr rest (c :: acc)

mutual

/-- Fueled recursive-descent parser for a JSON value.  Returns the value and
the unconsumed remainder, or `none` when the input is not acceptable JSON. -/
def parseVal : ℕ → List Char → Option (Json × List Char)
  | 0, _ => none
  | fuel + 1, cs =>
    match cs.dropWhile isWsChar with
    | [] => none
    | 'n' :: 'u' :: 'l' :: 'l' :: rest => some (Json.null, rest)
    | 't' :: 'r' :: 'u' :: 'e' :: rest => some (Json.jbool true, rest)
    | 'f' :: 'a' :: 'l' :: 's' :: 'e' :: rest => some (Json.jbool false, rest)
    | '"' :: rest => (parseJStr rest []).map fun sr => (Json.jstr sr.1, sr.2)
    | '[' :: rest =>
      (match rest.dropWhile isWsChar with
       | ']' :: rest2 => some (Json.jarr [], rest2)
       | rest2 => (parseItems fuel rest2).map fun xr => (Json.jarr xr.1, xr.2))
    | '{' :: rest =>
      (match rest.dropWhile isWsChar with
       | '}' :: rest2 => some (Json.jobj [], rest2)
       | rest2 => (parseMembers fuel rest2).map fun kr => (Json.jobj kr.1, kr.2))
    | c :: rest =>
      if isNumChar c then
        some (Json.jnum (String.mk ((c :: rest).takeWhile isNumChar)),
          (c :: rest).dropWhile isNumChar)
      else none

/-- Fueled parser for the comma-separated items of a (non-empty) JSON array,
up to and including the closing bracket. -/
def parseItems : ℕ → List Char → Option (List Json × List Char)
  | 0, _ => none
  | fuel + 1, cs =>
    match parseVal fuel cs with
    | none => none
    | some vr =>
      match vr.2.dropWhile isWsChar with
      | ',' :: rest2 =>
        (match parseItems fuel rest2 with
         | none => none
         | some xr => some (vr.1 :: xr.1, xr.2))
      | ']' :: rest2 => some ([vr.1], rest2)
      | _ => none

/-- Fueled parser for the members of a (non-empty) JSON object, up to and
including the closing brace. -/
def parseMembers : ℕ → List Char → Option (List (String × Json) × List Char)
  | 0, _ => none
  | fuel + 1, cs =>
    match cs.dropWhile isWsChar with
    | '"' :: rest =>
      (match parseJStr rest [] with
       | none => none
       | some kr =>
        match kr.2.dropWhile isWsChar with
        | ':' :: rest2 =>
          (match parseVal fuel rest2 with
           | none => none
           | some vr =>
            match vr.2.dropWhile isWsChar with
            | ',' :: rest4 =>
              (match parseMembers fuel rest4 with
               | none => none
               | some mr => some ((kr.1, vr.1) :: mr.1, mr.2))
            | '}' :: rest4 => some ([(kr.1, vr.1)], rest4)
            | _ => none)
        | _ => none)
    | _ => none

end

/-- Model of the platform `JSON.parse`: parse one JSON value and require
only trailing whitespace; `none` models a thrown `SyntaxError`. -/
def jsonParse (s : String) : Option Json :=
  match parseVal (4 * s.length + 16) s.data with
  | some vr => if (vr.2.dropWhile isWsChar).isEmpty then some vr.1 else none
  | none => none

/-- One load in the persistence-initialization effect (src/App.tsx lines
665-668): `const saved = localStorage.getItem(key); if (saved) setX(JSON.parse(saved))`.
`Except.ok none` means the setter was not invoked, so the state keeps its
initial empty-collection value; `Except.ok (some v)` means the state was set
to the parsed value; `Except.error ()` means `JSON.parse` threw (there is no
try/catch around it). -/
def loadStoredState (stored : Option String) : Except Unit (Option Json) :=
  match stored with
  | none => Except.ok none
  | some s =>
    if s = "" then Except.ok none
    else
      match jsonParse s with
      | some v => Except.ok (some v)
      | none => Except.error ()

/-- The whole persistence-initialization effect (src/App.tsx lines 664-669):
load the wishlist key, then the recently-viewed key; an exception in the
first load aborts the effect. -/
def initPersistence (savedWishlist savedRecently : Option String) :
    Except Unit (Option Json × Option Json) :=
  match loadStoredState savedWishlist with
  | Except.error e => Except.error e
  | Except.ok w =>
    match loadStoredState savedRecently with
    | Except.error e => Except.error e
    | Except.ok r => Except.ok (w, r)

/- ------------------------------------------------------------------ -/
/- Sample data used by concrete witnesses and counterexamples.        -/
/- ------------------------------------------------------------------ -/

/-- A small concrete product whose single existing review has rating 5 and
whose submitted-review counter starts at 7. -/
def sampleProduct : Product :=
  { id := "p", name := "P", description := "", price := 1, originalPrice := 2,
    image := "", category := Category.ai, rating := 5, reviews := 7, benefits := [],
    stock := Stock.inStock, duration := "m",
    userReviews := [{ id := "r0", userName := "u", rating := 5, comment := "c", date := "d" }] }

/-- A concrete cart snapshot of `sampleProduct` with quantity 1. -/
def sampleCartItem : CartItem := { sampleProduct with quantity := 1 }

/-- A rating-1 review with a non-empty comment. -/
def oneStarReview : Review :=
  { id := "r9", userName := "u2", rating := 1, comment := "bad", date := "2024-02-02" }

/-- A review whose comment trims to the empty string. -/
def emptyCommentReview : Review :=
  { id := "rX", userName := "Demo User", rating := 4, comment := "   ", date := "2024-01-01" }

/- ------------------------------------------------------------------ -/
/- Shared helper lemmas.                                              -/
/- ------------------------------------------------------------------ -/

theorem trackRecentlyViewed_head (h : List String) (pid : String) :
    (trackRecentlyViewed h pid).head? = some pid := by
  simp [trackRecentlyViewed]

theorem trackRecentlyViewed_length (h : List String) (pid : String) :
    (trackRecentlyViewed h pid).length ≤ 10 :=
  List.length_take_le 10 _

theorem trackRecentlyViewed_nodup (h : List String) (pid : String) (hn : h.Nodup) :
    (trackRecentlyViewed h pid).Nodup := by
  refine (List.take_sublist 10 _).nodup ?_
  refine List.Nodup.cons ?_ (hn.filter _)
  intro hmem
  have := (List.mem_filter.mp hmem).2
  simp at this

theorem trackRecentlyViewed_foldl_nodup (seq : List String) (h : List String) (hn : h.Nodup) :
    (seq.foldl trackRecentlyViewed h).Nodup := by
  induction seq generalizing h with
  | nil => exact hn
  | cons x xs ih => exact ih _ (trackRecentlyViewed_nodup h x hn)

theorem trackRecentlyViewed_foldl_length (seq : List String) (h : List String)
    (hl : h.length ≤ 10) : (seq.foldl trackRecentlyViewed h).length ≤ 10 := by
  induction seq generalizing h with
  | nil => exact hl
  | cons x xs ih => exact ih _ (trackRecentlyViewed_length h x)

/- ------------------------------------------------------------------ -/
/- Claims C9 and C10: history tracker.                                -/
/- ------------------------------------------------------------------ -/

/-- Claim C9: `trackViewed` removes any existing occurrence, prepends, and
truncates to 10; `trackViewed(X); trackViewed(Y); trackViewed(X)` yields
`[X, Y]`, and after any sequence of calls the history has no duplicates and
length at most 10. -/
theorem claim_C9 :
    (∀ (h : List String) (pid : String), (trackRecentlyViewed h pid).head? = some pid)
    ∧ (∀ (h : List String) (pid : String), (trackRecentlyViewed h pid).length ≤ 10)
    ∧ (∀ (h : List String) (pid : String), h.Nodup → (trackRecentlyViewed h pid).Nodup)
    ∧ (∀ seq : List String, (seq.foldl trackRecentlyViewed []).Nodup
        ∧ (seq.foldl trackRecentlyViewed []).length ≤ 10)
    ∧ (∀ X Y : String, X ≠ Y →
        trackRecentlyViewed (trackRecentlyViewed (trackRecentlyViewed [] X) Y) X = [X, Y]) := by
  refine ⟨trackRecentlyViewed_head, trackRecentlyViewed_length, trackRecentlyViewed_nodup,
    fun seq => ⟨trackRecentlyViewed_foldl_nodup seq [] List.nodup_nil,
      trackRecentlyViewed_foldl_length seq [] (by simp)⟩, ?_⟩
  intro X Y hXY
  simp [trackRecentlyViewed, hXY, Ne.symm hXY]

/-- Witness for C9 at concrete inputs. -/
theorem claim_C9_witness :
    trackRecentlyViewed (trackRecentlyViewed (trackRecentlyViewed [] "a") "b") "a"
      = ["a", "b"] :=
  claim_C9.2.2.2.2 "a" "b" (by decide)

/-- Claim C10: the `addToCart` callback also records the product as
recently viewed, applying exactly the `trackRecentlyViewed` update to its
id, while leaving the wishlist and the catalog untouched (and opening the
cart drawer). -/
theorem claim_C10 (s : AppState) (product : Product) (quantity : ℤ) :
    (appAddToCart s product quantity).recentlyViewedIds
        = trackRecentlyViewed s.recentlyViewedIds product.id
    ∧ (appAddToCart s product quantity).cart = addToCart s.cart product quantity
    ∧ (appAddToCart s product quantity).wishlist = s.wishlist
    ∧ (appAddToCart s product quantity).products = s.products
    ∧ (appAddToCart s product quantity).isCartOpen = true :=
  ⟨rfl, rfl, rfl, rfl, rfl⟩

/- ------------------------------------------------------------------ -/
/- Claim C8: updateQuantity.                                          -/
/- ------------------------------------------------------------------ -/

/-- Claim C8: `updateQuantity(id, q)` with `q ≤ 0` is exactly `remove(id)`;
with `q > 0` it sets the matching item's quantity to exactly `q` (leaving
everything else in place); with an absent id it is a no-op. -/
theorem claim_C8 (cart : List CartItem) (id : String) (q : ℤ) :
    (q ≤ 0 → updateQuantity cart id q = removeFromCart cart id)
    ∧ (0 < q → (updateQuantity cart id q).length = cart.length
        ∧ ∀ (i : ℕ) (hi : i < cart.length) (hi2 : i < (updateQuantity cart id q).length),
          (updateQuantity cart id q)[i] =
            if cart[i].id = id then { cart[i] with quantity := q } else cart[i])
    ∧ ((∀ item ∈ cart, item.id ≠ id) → updateQuantity cart id q = cart) := by
  refine ⟨fun hq => by simp [updateQuantity, hq], fun hq => ?_, fun habs => ?_⟩
  · have hq' : ¬ q ≤ 0 := not_le.mpr hq
    constructor
    · simp [updateQuantity, hq']
    · intro i hi hi2
      simp [updateQuantity, hq']
  · by_cases hq : q ≤ 0
    · have : removeFromCart cart id = cart := by
        refine List.filter_eq_self.mpr fun item hmem => ?_
        simpa using habs item hmem
      simp [updateQuantity, hq, this]
    · simp only [updateQuantity, if_neg hq]
      refine (List.map_congr_left fun item hmem => ?_).trans (List.map_id _)
      simp [habs item hmem]

/-- Witness for C8 at concrete inputs. -/
theorem claim_C8_witness :
    updateQuantity [sampleCartItem] "p" 0 = removeFromCart [sampleCartItem] "p"
    ∧ updateQuantity [sampleCartItem] "zzz" 4 = [sampleCartItem] :=
  ⟨(claim_C8 [sampleCartItem] "p" 0).1 (by decide),
   (claim_C8 [sampleCartItem] "zzz" 4).2.2 (by decide)⟩

/- ------------------------------------------------------------------ -/
/- Claim C1: empty-comment review handling.                           -/
/- ------------------------------------------------------------------ -/

/-- Counterexample for C1 as stated: the engine operation
`handleAddReview` does NOT defend against an empty-trimmed comment; called
directly with such a review it changes the catalog (here the
submitted-review counter goes from 7 to 8). -/
theorem claim_C1_cex :
    trimStr emptyCommentReview.comment = ""
    ∧ handleAddReview [sampleProduct] sampleProduct.id emptyCommentReview ≠ [sampleProduct] := by
  refine ⟨by decide, fun h => ?_⟩
  have h2 := congrArg (List.map fun p => p.reviews) h
  simp [handleAddReview, sampleProduct, emptyCommentReview] at h2

/-- Claim C1 (amended): the silent no-op on an empty-trimmed comment lives
in the UI submit handler, not in the engine operation: for every catalog,
product id and submission whose comment trims to the empty string,
`handleSubmitReview` returns the catalog unchanged (it never calls
`handleAddReview`). -/
theorem claim_C1 (products : List Product) (productId : String) (reviewRating : ℚ)
    (reviewComment newId newDate : String) (hempty : trimStr reviewComment = "") :
    handleSubmitReview products productId reviewRating reviewComment newId newDate
      = products := by
  simp [handleSubmitReview, hempty]

/-- Witness for C1 at concrete inputs. -/
theorem claim_C1_witness :
    handleSubmitReview [sampleProduct] "p" 5 "   " "rX" "2024-01-01" = [sampleProduct] :=
  claim_C1 [sampleProduct] "p" 5 "   " "rX" "2024-01-01" (by decide)

/- ------------------------------------------------------------------ -/
/- Claim C2: persistence load.                                        -/
/- ------------------------------------------------------------------ -/

/-- Counterexample for C2 as stated: a malformed stored value is NOT
treated as absent; `JSON.parse` is called with no try/catch, so the load
raises (modelled by `Except.error`). -/
theorem claim_C2_cex :
    loadStoredState (some "\x7b") = Except.error ()
    ∧ loadStoredState (some "\x7b") ≠ Except.ok none := by
  refine ⟨rfl, fun h => ?_⟩
  rw [show loadStoredState (some "\x7b") = Except.error () from rfl] at h
  exact Except.noConfusion h

/-- Claim C2 (amended): absence of a stored value (and, `getItem`
returning the falsy empty string) leaves both collections empty, but a
malformed (unparseable) stored value makes the unguarded `JSON.parse`
throw instead of being treated as absent. -/
theorem claim_C2 :
    initPersistence none none = Except.ok (none, none)
    ∧ loadStoredState (some "") = Except.ok none
    ∧ (∀ s : String, s ≠ "" → jsonParse s = none →
        loadStoredState (some s) = Except.error ()) := by
  refine ⟨rfl, rfl, fun s hne hbad => ?_⟩
  simp [loadStoredState, hne, hbad]

/-- Witness for C2 at a concrete malformed payload. -/
theorem claim_C2_witness : loadStoredState (some "\x7b") = Except.error () :=
  claim_C2.2.2 "\x7b" (by decide) rfl

/- ------------------------------------------------------------------ -/
/- Claim C7: addToCart.                                               -/
/- ------------------------------------------------------------------ -/

theorem addToCart_of_not_mem (cart : List CartItem) (P : Product) (q : ℤ)
    (habs : ∀ item ∈ cart, item.id ≠ P.id) :
    addToCart cart P q = cart ++ [{ toProduct := P, quantity := q }] := by
  have hfind : (cart.find? fun item => decide (item.id = P.id)) = none := by
    rw [List.find?_eq_none]
    intro item hmem
    simp [habs item hmem]
  unfold addToCart
  rw [hfind]

theorem addToCart_of_found (cart : List CartItem) (P : Product) (q : ℤ) (found : CartItem)
    (hfind : (cart.find? fun item => decide (item.id = P.id)) = some found) :
    addToCart cart P q = cart.map fun it =>
      if it.id = P.id then { it with quantity := it.quantity + q } else it := by
  unfold addToCart
  rw [hfind]

theorem addToCart_ids_nodup (c : List CartItem) (Q : Product) (q : ℤ)
    (hn : (c.map fun i => i.id).Nodup) : ((addToCart c Q q).map fun i => i.id).Nodup := by
  rcases hfind : c.find? fun item => decide (item.id = Q.id) with _ | found
  · have habs : ∀ item ∈ c, item.id ≠ Q.id := by
      rw [List.find?_eq_none] at hfind
      intro item hmem
      simpa using hfind item hmem
    rw [addToCart_of_not_mem c Q q habs, List.map_append, List.nodup_append]
    refine ⟨hn, by simp, ?_⟩
    intro a ha
    simp only [List.mem_map] at ha
    obtain ⟨item, hmem, hid⟩ := ha
    simp [← hid, habs item hmem]
  · rw [addToCart_of_found c Q q found hfind, List.map_map]
    have hcomp : ((fun i : CartItem => i.id) ∘ fun it : CartItem =>
        if it.id = Q.id then { it with quantity := it.quantity + q } else it)
          = fun it : CartItem => it.id := by
      funext it
      by_cases h : it.id = Q.id <;> simp [h]
    rw [hcomp]
    exact hn

/-- Claim C7: starting from a cart without `P`'s id, `add(P, a)` inserts a
fresh snapshot with quantity `a`, and a second `add(P, b)` accumulates to a
single entry of quantity `a + b`; `addToCart` always preserves the
one-entry-per-id invariant. -/
theorem claim_C7 (cart : List CartItem) (P : Product) (a b : ℤ)
    (habs : ∀ item ∈ cart, item.id ≠ P.id) (_ha : 0 < a) (_hb : 0 < b) :
    (addToCart (addToCart cart P a) P b).filter (fun item => decide (item.id = P.id))
        = [{ toProduct := P, quantity := a + b }]
    ∧ addToCart cart P a = cart ++ [{ toProduct := P, quantity := a }]
    ∧ ∀ (c : List CartItem) (Q : Product) (q : ℤ),
        (c.map fun i => i.id).Nodup → ((addToCart c Q q).map fun i => i.id).Nodup := by
  have h1 : addToCart cart P a = cart ++ [{ toProduct := P, quantity := a }] :=
    addToCart_of_not_mem cart P a habs
  refine ⟨?_, h1, fun c Q q => addToCart_ids_nodup c Q q⟩
  have hfindc : (cart.find? fun item => decide (item.id = P.id)) = none := by
    rw [List.find?_eq_none]
    intro item hmem
    simp [habs item hmem]
  have hfind2 : ((cart ++ [({ toProduct := P, quantity := a } : CartItem)]).find?
      fun item => decide (item.id = P.id)) = some { toProduct := P, quantity := a } := by
    rw [List.find?_append, hfindc]
    simp [List.find?]
  rw [h1, addToCart_of_found _ P b _ hfind2, List.map_append, List.filter_append]
  have hmapcart : (cart.map fun it : CartItem =>
      if it.id = P.id then { it with quantity := it.quantity + b } else it) = cart := by
    refine (List.map_congr_left fun it hmem => ?_).trans (List.map_id _)
    simp [habs it hmem]
  have hfilcart : cart.filter (fun item => decide (item.id = P.id)) = [] := by
    rw [List.filter_eq_nil_iff]
    intro item hmem
    simp [habs item hmem]
  rw [hmapcart, hfilcart]
  simp

/-- Witness for C7: `add(P,2); add(P,3)` on an empty cart yields a single
entry of quantity 5. -/
theorem claim_C7_witness :
    (addToCart (addToCart [] sampleProduct 2) sampleProduct 3).filter
        (fun item => decide (item.id = sampleProduct.id))
      = [{ toProduct := sampleProduct, quantity := 2 + 3 }] :=
  (claim_C7 [] sampleProduct 2 3 (by simp) (by decide) (by decide)).1

/- ------------------------------------------------------------------ -/
/- Claim C6: handleAddReview.                                         -/
/- ------------------------------------------------------------------ -/

theorem foldl_add_rating (l : List Review) (init : ℚ) :
    l.foldl (fun acc r => acc + r.rating) init = init + (l.map Review.rating).sum := by
  induction l generalizing init with
  | nil => simp
  | cons r rs ih =>
    simp only [List.foldl_cons, List.map_cons, List.sum_cons, ih]
    ring

/-- Claim C6: `addReview` prepends the review to the target product's
`userReviews`, sets the rating to the arithmetic mean of all ratings in the
updated list rounded to one decimal place, increments the `reviews` counter
by exactly 1, and leaves every other product untouched; in particular a
rating-1 review on a product whose only existing review has rating 5 yields
rating 3.0 and `reviews` incremented by 1. -/
theorem claim_C6 :
    (∀ (products : List Product) (productId : String) (review : Review),
      trimStr review.comment ≠ "" → review.rating.den = 1 →
      (handleAddReview products productId review).length = products.length
      ∧ ∀ (i : ℕ) (hi : i < products.length)
          (hi2 : i < (handleAddReview products productId review).length),
          (handleAddReview products productId review)[i] =
            if products[i].id = productId then
              { products[i] with
                userReviews := review :: products[i].userReviews,
                rating := round1 ((((review :: products[i].userReviews).map Review.rating).sum) /
                  ((review :: products[i].userReviews).length : ℚ)),
                reviews := products[i].reviews + 1 }
            else products[i])
    ∧ (handleAddReview [sampleProduct] "p" oneStarReview).map (fun p => (p.rating, p.reviews))
        = [(3, 8)] := by
  constructor
  · intro products productId review _ _
    refine ⟨by simp [handleAddReview], ?_⟩
    intro i hi hi2
    simp only [handleAddReview, List.getElem_map]
    by_cases h : products[i].id = productId
    · simp [h, foldl_add_rating]
    · simp [h]
  · simp [handleAddReview, sampleProduct, oneStarReview, round1, round_eq]
    norm_num

/-- Witness for C6 at concrete inputs. -/
theorem claim_C6_witness :
    (handleAddReview [sampleProduct] "p" oneStarReview).length = 1 :=
  (claim_C6.1 [sampleProduct] "p" oneStarReview (by decide) (by rfl)).1

/- ------------------------------------------------------------------ -/
/- Claim C3: recommendation matching.                                 -/
/- ------------------------------------------------------------------ -/

/-- Counterexample for C3 as stated: with fragments `["Spotify","Netflix"]`
and an empty cart, the code returns the matches in catalog order (Netflix
first), not in the fragment order the claim describes (Spotify first). -/
theorem claim_C3_cex :
    (suggestedRecommendations ["Spotify", "Netflix"] []).map (fun p => p.id)
        = ["netflix-prem", "spotify-prem"]
    ∧ (specOrderedRecommendations ["Spotify", "Netflix"] []).map (fun p => p.id)
        = ["spotify-prem", "netflix-prem"]
    ∧ suggestedRecommendations ["Spotify", "Netflix"] []
        ≠ specOrderedRecommendations ["Spotify", "Netflix"] [] := by
  refine ⟨by decide, by decide, fun h => ?_⟩
  have h2 := congrArg (List.map fun p => p.id) h
  have e1 : (suggestedRecommendations ["Spotify", "Netflix"] []).map (fun p => p.id)
      = ["netflix-prem", "spotify-prem"] := by decide
  have e2 : (specOrderedRecommendations ["Spotify", "Netflix"] []).map (fun p => p.id)
      = ["spotify-prem", "netflix-prem"] := by decide
  rw [e1, e2] at h2
  exact absurd h2 (by decide)

/-- Claim C3 (amended): the recommendation list contains only catalog
products whose name case-insensitively contains some fragment, excludes
every product whose id is in the cart, has at most 3 entries, has no
duplicate product ids, and is ordered by catalog order (it is a sublist of
`PRODUCTS`), not by the order of the fragments. -/
theorem claim_C3 (names : List String) (cart : List CartItem) :
    (∀ p ∈ suggestedRecommendations names cart,
        p ∈ PRODUCTS ∧ (∃ n ∈ names, nameMatches p n = true) ∧ ∀ c ∈ cart, c.id ≠ p.id)
    ∧ (suggestedRecommendations names cart).length ≤ 3
    ∧ ((suggestedRecommendations names cart).map fun p => p.id).Nodup
    ∧ (suggestedRecommendations names cart).Sublist PRODUCTS := by
  have hsub : (suggestedRecommendations names cart).Sublist PRODUCTS :=
    ((List.take_sublist 3 _).trans (List.filter_sublist _))
  refine ⟨?_, List.length_take_le 3 _, ?_, hsub⟩
  · intro p hp
    have hfil := List.mem_of_mem_take hp
    have hmem := List.mem_filter.mp hfil
    refine ⟨hmem.1, ?_, ?_⟩
    · have := hmem.2
      simp only [Bool.and_eq_true, List.any_eq_true] at this
      obtain ⟨⟨n, hn, hmatch⟩, _⟩ := this
      exact ⟨n, hn, hmatch⟩
    · intro c hc hcid
      have := hmem.2
      simp only [Bool.and_eq_true, Bool.not_eq_true', List.any_eq_false,
        decide_eq_true_eq] at this
      exact this.2 c hc hcid
  · have hids : (PRODUCTS.map fun p => p.id).Nodup := by decide
    exact (hsub.map fun p => p.id).nodup hids

/- ------------------------------------------------------------------ -/
/- Comparator lemmas and a stability lemma for the sort stage.        -/
/- ------------------------------------------------------------------ -/

theorem charListLe_refl : ∀ (l : List Char), charListLe l l = true
  | [] => rfl
  | a :: as => by simp [charListLe, charListLe_refl as]

theorem charListLe_total : ∀ (a b : List Char), (charListLe a b || charListLe b a) = true
  | [], _ => by simp [charListLe]
  | _ :: _, [] => by simp [charListLe]
  | a :: as, b :: bs => by
    rcases lt_trichotomy a b with h | h | h
    · simp [charListLe, h]
    · subst h
      simpa [charListLe] using charListLe_total as bs
    · simp [charListLe, h, not_lt_of_gt h]

theorem charListLe_trans : ∀ (a b c : List Char),
    charListLe a b = true → charListLe b c = true → charListLe a c = true
  | [], _, _ => by simp [charListLe]
  | _ :: _, [], _ => by simp [charListLe]
  | _ :: _, _ :: _, [] => by simp [charListLe]
  | a :: as, b :: bs, c :: cs => by
    intro h1 h2
    rcases lt_trichotomy a b with hab | hab | hab
    · rcases lt_trichotomy b c with hbc | hbc | hbc
      · simp [charListLe, lt_trans hab hbc]
      · subst hbc
        simp [charListLe, hab]
      · simp [charListLe, hbc, not_lt_of_gt hbc] at h2
    · subst hab
      rcases lt_trichotomy a c with hbc | hbc | hbc
      · simp [charListLe, hbc]
      · subst hbc
        simp only [charListLe, lt_irrefl, if_false] at h1 h2 ⊢
        exact charListLe_trans as bs cs h1 h2
      · simp [charListLe, hbc, not_lt_of_gt hbc] at h2
    · simp [charListLe, hab, not_lt_of_gt hab] at h1

/-- Stability of `mergeSort` phrased on key classes: for a comparator that
holds between any two elements with equal keys, the elements of any single
key class appear in the sorted output exactly as they appear in the input. -/
theorem mergeSort_stable_filter {α β : Type} [DecidableEq β] (k : α → β) (le : α → α → Bool)
    (htrans : ∀ a b c, le a b = true → le b c = true → le a c = true)
    (htotal : ∀ a b, (le a b || le b a) = true)
    (hk : ∀ a b, k a = k b → le a b = true)
    (l : List α) (x : β) :
    (l.mergeSort le).filter (fun a => decide (k a = x))
      = l.filter (fun a => decide (k a = x)) := by
  have hmemk : ∀ a ∈ l.filter (fun a => decide (k a = x)), k a = x := fun a ha => by
    simpa using (List.mem_filter.mp ha).2
  have hc : (l.filter (fun a => decide (k a = x))).Pairwise (fun a b => le a b = true) :=
    List.pairwise_of_forall_mem_list fun a ha b hb =>
      hk a b ((hmemk a ha).trans (hmemk b hb).symm)
  have h1 : (l.filter (fun a => decide (k a = x))).Sublist (l.mergeSort le) :=
    List.sublist_mergeSort htrans htotal hc (List.filter_sublist l)
  have h2 : (l.filter (fun a => decide (k a = x))).filter (fun a => decide (k a = x))
      = l.filter (fun a => decide (k a = x)) :=
    List.filter_eq_self.mpr fun a ha => by simp [hmemk a ha]
  have h3 : (l.filter (fun a => decide (k a = x))).Sublist
      ((l.mergeSort le).filter (fun a => decide (k a = x))) :=
    h2 ▸ h1.filter (fun a => decide (k a = x))
  have hlen : ((l.mergeSort le).filter (fun a => decide (k a = x))).length
      = (l.filter (fun a => decide (k a = x))).length :=
    ((List.mergeSort_perm l le).filter (fun a => decide (k a = x))).length_eq
  exact (h3.eq_of_length hlen.symm).symm

theorem sortStep_perm (l : List Product) (sb : SortOption) : (sortStep l sb).Perm l := by
  cases sb with
  | featured => exact List.Perm.refl l
  | priceLow => exact List.mergeSort_perm l _
  | priceHigh => exact List.mergeSort_perm l _
  | rating => exact List.mergeSort_perm l _
  | name => exact List.mergeSort_perm l _

theorem mem_filteredProducts (products : List Product) (spec : QuerySpec) (p : Product) :
    p ∈ filteredProducts products spec ↔ p ∈ filterStep products spec :=
  (sortStep_perm (filterStep products spec) spec.sortBy).mem_iff

theorem length_filteredProducts (products : List Product) (spec : QuerySpec) :
    (filteredProducts products spec).length = (filterStep products spec).length :=
  (sortStep_perm (filterStep products spec) spec.sortBy).length_eq

/- ------------------------------------------------------------------ -/
/- Claim C4: conjunctive filtering.                                   -/
/- ------------------------------------------------------------------ -/

theorem matchesCategory_iff (spec : QuerySpec) (p : Product) :
    matchesCategory spec p = true ↔
      (spec.activeCategory = CategoryFilter.all
        ∨ spec.activeCategory = CategoryFilter.only p.category) := by
  cases h : spec.activeCategory with
  | all => simp [matchesCategory, h]
  | only c =>
    simp only [matchesCategory, h, decide_eq_true_eq]
    constructor
    · intro hc
      exact Or.inr (by rw [hc])
    · rintro (hc | hc)
      · exact absurd hc (by simp)
      · exact (CategoryFilter.only.inj hc).symm

theorem matchesStock_iff (spec : QuerySpec) (p : Product) :
    matchesStock spec p = true ↔ (spec.stockOnly = true → p.stock = Stock.inStock) := by
  cases h : spec.stockOnly <;> simp [matchesStock, h]

/-- Claim C4: a product is in the filtered result iff ALL five predicates
hold (case-insensitive name match, category, price in `[0, ceiling]`,
minimum rating, stock), and weakening the conjunction — in particular
dropping any single predicate — can never shrink the result. -/
theorem claim_C4 (products : List Product) (sq : String) (cat : CategoryFilter)
    (ph mr : ℚ) (so : Bool) (sb : SortOption) (p : Product) :
    (p ∈ filteredProducts products ⟨sq, cat, (0, ph), mr, so, sb⟩ ↔
      p ∈ products
      ∧ strIncludes (toLowerStr p.name) (toLowerStr sq) = true
      ∧ (cat = CategoryFilter.all ∨ cat = CategoryFilter.only p.category)
      ∧ (0 ≤ p.price ∧ p.price ≤ ph)
      ∧ mr ≤ p.rating
      ∧ (so = true → p.stock = Stock.inStock))
    ∧ ∀ keep : Product → Bool,
        (∀ q : Product,
          (matchesSearch ⟨sq, cat, (0, ph), mr, so, sb⟩ q
            && matchesCategory ⟨sq, cat, (0, ph), mr, so, sb⟩ q
            && matchesPrice ⟨sq, cat, (0, ph), mr, so, sb⟩ q
            && matchesRating ⟨sq, cat, (0, ph), mr, so, sb⟩ q
            && matchesStock ⟨sq, cat, (0, ph), mr, so, sb⟩ q) = true → keep q = true) →
        (filteredProducts products ⟨sq, cat, (0, ph), mr, so, sb⟩).length
          ≤ (products.filter keep).length := by
  constructor
  · rw [mem_filteredProducts, filterStep, List.mem_filter]
    constructor
    · rintro ⟨hmem, hb⟩
      simp only [Bool.and_eq_true] at hb
      obtain ⟨⟨⟨⟨hs, hc⟩, hp⟩, hr⟩, hst⟩ := hb
      refine ⟨hmem, hs, (matchesCategory_iff _ p).mp hc, ?_, ?_,
        (matchesStock_iff _ p).mp hst⟩
      · simpa [matchesPrice] using hp
      · simpa [matchesRating] using hr
    · rintro ⟨hmem, hs, hc, hp, hr, hst⟩
      refine ⟨hmem, ?_⟩
      simp only [Bool.and_eq_true]
      exact ⟨⟨⟨⟨hs, (matchesCategory_iff _ p).mpr hc⟩, by simp [matchesPrice, hp.1, hp.2]⟩,
        by simp [matchesRating, hr]⟩, (matchesStock_iff _ p).mpr hst⟩
  · intro keep hkeep
    rw [length_filteredProducts]
    have hsub : (filterStep products ⟨sq, cat, (0, ph), mr, so, sb⟩).Sublist
        (products.filter keep) := by
      rw [filterStep]
      exact List.monotone_filter_right products fun a ha => hkeep a ha
    exact hsub.length_le

/-- Witness for C4: weakening to the always-true predicate at concrete
inputs cannot shrink the result. -/
theorem claim_C4_witness :
    (filteredProducts PRODUCTS
        ⟨"x", CategoryFilter.all, (0, 50), 0, false, SortOption.featured⟩).length
      ≤ (PRODUCTS.filter fun _ => true).length :=
  (claim_C4 PRODUCTS "x" CategoryFilter.all 50 0 false SortOption.featured
    sampleProduct).2 (fun _ => true) (fun _ _ => rfl)

/- ------------------------------------------------------------------ -/
/- Claim C5: sorting.                                                 -/
/- ------------------------------------------------------------------ -/

/-- Claim C5: sorting is applied to the filtered result: `featured` keeps
the filtered (catalog-order) sequence unchanged, `price-low`/`price-high`
sort by price ascending/descending, `rating` by rating descending, `name`
lexicographically ascending by display name; each sorted result is a
permutation of the filtered sequence and is stable (inside every class of
equal sort keys the order of the filtered sequence is kept). -/
theorem claim_C5 (products : List Product) (sq : String) (cat : CategoryFilter)
    (pr : ℚ × ℚ) (mr : ℚ) (so : Bool) :
    (filteredProducts products ⟨sq, cat, pr, mr, so, SortOption.featured⟩
        = filterStep products ⟨sq, cat, pr, mr, so, SortOption.featured⟩
      ∧ (filterStep products ⟨sq, cat, pr, mr, so, SortOption.featured⟩).Sublist products)
    ∧ ((filteredProducts products ⟨sq, cat, pr, mr, so, SortOption.priceLow⟩).Perm
          (filterStep products ⟨sq, cat, pr, mr, so, SortOption.priceLow⟩)
      ∧ (filteredProducts products ⟨sq, cat, pr, mr, so, SortOption.priceLow⟩).Pairwise
          (fun a b => a.price ≤ b.price)
      ∧ ∀ x : ℚ,
          (filteredProducts products ⟨sq, cat, pr, mr, so, SortOption.priceLow⟩).filter
              (fun p => decide (p.price = x))
            = (filterStep products ⟨sq, cat, pr, mr, so, SortOption.priceLow⟩).filter
              (fun p => decide (p.price = x)))
    ∧ ((filteredProducts products ⟨sq, cat, pr, mr, so, SortOption.priceHigh⟩).Perm
          (filterStep products ⟨sq, cat, pr, mr, so, SortOption.priceHigh⟩)
      ∧ (filteredProducts products ⟨sq, cat, pr, mr, so, SortOption.priceHigh⟩).Pairwise
          (fun a b => b.price ≤ a.price)
      ∧ ∀ x : ℚ,
          (filteredProducts products ⟨sq, cat, pr, mr, so, SortOption.priceHigh⟩).filter
              (fun p => decide (p.price = x))
            = (filterStep products ⟨sq, cat, pr, mr, so, SortOption.priceHigh⟩).filter
              (fun p => decide (p.price = x)))
    ∧ ((filteredProducts products ⟨sq, cat, pr, mr, so, SortOption.rating⟩).Perm
          (filterStep products ⟨sq, cat, pr, mr, so, SortOption.rating⟩)
      ∧ (filteredProducts products ⟨sq, cat, pr, mr, so, SortOption.rating⟩).Pairwise
          (fun a b => b.rating ≤ a.rating)
      ∧ ∀ x : ℚ,
          (filteredProducts products ⟨sq, cat, pr, mr, so, SortOption.rating⟩).filter
              (fun p => decide (p.rating = x))
            = (filterStep products ⟨sq, cat, pr, mr, so, SortOption.rating⟩).filter
              (fun p => decide (p.rating = x)))
    ∧ ((filteredProducts products ⟨sq, cat, pr, mr, so, SortOption.name⟩).Perm
          (filterStep products ⟨sq, cat, pr, mr, so, SortOption.name⟩)
      ∧ (filteredProducts products ⟨sq, cat, pr, mr, so, SortOption.name⟩).Pairwise
          (fun a b => charListLe a.name.data b.name.data = true)
      ∧ ∀ x : String,
          (filteredProducts products ⟨sq, cat, pr, mr, so, SortOption.name⟩).filter
              (fun p => decide (p.name = x))
            = (filterStep products ⟨sq, cat, pr, mr, so, SortOption.name⟩).filter
              (fun p => decide (p.name = x))) := by
  have htransLow : ∀ a b c : Product, decide (a.price ≤ b.price) = true →
      decide (b.price ≤ c.price) = true → decide (a.price ≤ c.price) = true := by
    intro a b c hab hbc
    simp only [decide_eq_true_eq] at *
    exact le_trans hab hbc
  have htotalLow : ∀ a b : Product,
      (decide (a.price ≤ b.price) || decide (b.price ≤ a.price)) = true := by
    intro a b
    simpa using le_total a.price b.price
  have htransHigh : ∀ a b c : Product, decide (b.price ≤ a.price) = true →
      decide (c.price ≤ b.price) = true → decide (c.price ≤ a.price) = true := by
    intro a b c hab hbc
    simp only [decide_eq_true_eq] at *
    exact le_trans hbc hab
  have htotalHigh : ∀ a b : Product,
      (decide (b.price ≤ a.price) || decide (a.price ≤ b.price)) = true := by
    intro a b
    simpa using le_total b.price a.price
  have htransRat : ∀ a b c : Product, decide (b.rating ≤ a.rating) = true →
      decide (c.rating ≤ b.rating) = true → decide (c.rating ≤ a.rating) = true := by
    intro a b c hab hbc
    simp only [decide_eq_true_eq] at *
    exact le_trans hbc hab
  have htotalRat : ∀ a b : Product,
      (decide (b.rating ≤ a.rating) || decide (a.rating ≤ b.rating)) = true := by
    intro a b
    simpa using le_total b.rating a.rating
  have htransName : ∀ a b c : Product, charListLe a.name.data b.name.data = true →
      charListLe b.name.data c.name.data = true → charListLe a.name.data c.name.data = true :=
    fun a b c hab hbc => charListLe_trans a.name.data b.name.data c.name.data hab hbc
  have htotalName : ∀ a b : Product,
      (charListLe a.name.data b.name.data || charListLe b.name.data a.name.data) = true :=
    fun a b => charListLe_total a.name.data b.name.data
  refine ⟨⟨rfl, List.filter_sublist _⟩, ⟨?_, ?_, ?_⟩, ⟨?_, ?_, ?_⟩, ⟨?_, ?_, ?_⟩,
    ⟨?_, ?_, ?_⟩⟩
  · exact List.mergeSort_perm _ _
  · exact (List.sorted_mergeSort htransLow htotalLow _).imp fun h => by simpa using h
  · exact fun x => mergeSort_stable_filter (fun p : Product => p.price) _
      htransLow htotalLow (fun a b h => by simp [h]) _ x
  · exact List.mergeSort_perm _ _
  · exact (List.sorted_mergeSort htransHigh htotalHigh _).imp fun h => by simpa using h
  · exact fun x => mergeSort_stable_filter (fun p : Product => p.price) _
      htransHigh htotalHigh (fun a b h => by simp [h]) _ x
  · exact List.mergeSort_perm _ _
  · exact (List.sorted_mergeSort htransRat htotalRat _).imp fun h => by simpa using h
  · exact fun x => mergeSort_stable_filter (fun p : Product => p.rating) _
      htransRat htotalRat (fun a b h => by simp [h]) _ x
  · exact List.mergeSort_perm _ _
  · exact (List.sorted_mergeSort htransName htotalName _).imp fun h => h
  · exact fun x => mergeSort_stable_filter (fun p : Product => p.name) _
      htransName htotalName (fun a b h => by
        have h2 : a.name = b.name := h
        rw [h2]
        exact charListLe_refl _) _ x
